import Mathlib

/-!
# Verification of the ad-detection / ad-matching core

Shallow embedding, in Lean 4, of the detection-and-matching engine of the
`screenshots` repository (`src/services/adDetection.js`,
`src/services/adReplacement.js` and the extended ad-detection module).

Modelling conventions:
* JavaScript numbers appearing as pixel sizes are modelled as `Int`
  (they arise from `parseInt` and `Math.round`); raw rendered rectangle
  dimensions are modelled as `Rat`, with `Math.round` modelled as
  `⌊q + 1/2⌋` (which is exactly what `Math.round` computes).
* Floating-point arithmetic in the tolerance / aspect-ratio predicates is
  modelled over `Rat`.
* JavaScript `Set` objects holding strings are modelled as `List String`
  with membership.
* `Array.prototype.sort` (stable in every modern engine) is modelled by a
  stable insertion sort with the boolean relation induced by the source's
  comparator; for a consistent comparator the two agree.
* Values that may be `null`/`undefined`/non-string (the `size` field fed to
  `parseSize`) are modelled by the `JSValue` type below.
* Browser-side effects (DOM queries, page evaluation, DV360 extraction,
  the filesystem) are modelled as explicit oracle parameters; the pure
  control flow around them is translated from the source.
-/

namespace Screenshots

/-- A JavaScript value as it can appear in the loosely-typed fields the
core inspects (`clientAd.size` in particular). -/
inductive JSValue where
  | vstr (s : String)
  | vnum (q : Rat)
  | vbool (b : Bool)
  | vnull
  | vundefined
deriving DecidableEq, Repr

/-- `{ width, height }` pixel-size record. -/
structure Size where
  width : Int
  height : Int
deriving DecidableEq, Repr

/-! ## `parseSize` (adReplacement.js lines 501-509)

```js
export const parseSize = (sizeString) => {
  if (!sizeString || typeof sizeString !== 'string') return null;
  const match = sizeString.match(/^(\d+)x(\d+)$/);
  if (!match) return null;
  return { width: parseInt(match[1], 10), height: parseInt(match[2], 10) };
};
```
-/

/-- Numeric value of a decimal digit character. -/
def digitVal (c : Char) : Nat := c.toNat - '0'.toNat

/-- `parseInt(_, 10)` on a string of decimal digits. -/
def decimalValue (ds : List Char) : Nat :=
  ds.foldl (fun n c => 10 * n + digitVal c) 0

/-- Matching of `^(\d+)x(\d+)$` on the character list of the input, with
the two capture groups fed through `parseInt`.  The regex engine's first
group is necessarily the maximal digit prefix (a digit can never match the
literal `x`), so `takeWhile`/`dropWhile` model the match exactly. -/
def parseSizeChars (cs : List Char) : Option Size :=
  match cs.dropWhile Char.isDigit with
  | 'x' :: d2 =>
    if cs.takeWhile Char.isDigit ≠ [] ∧ d2 ≠ [] ∧ d2.all Char.isDigit then
      some ⟨(decimalValue (cs.takeWhile Char.isDigit) : Int), (decimalValue d2 : Int)⟩
    else
      none
  | _ => none

/-- `parseSize` — total on every JavaScript value: non-strings and the
empty string (falsy) are rejected up front, everything else goes through
the regex. -/
def parseSize : JSValue → Option Size
  | .vstr s => if s = "" then none else parseSizeChars s.toList
  | _ => none

/-- Spec-side reading of a digit-character list as a decimal integer
(most significant digit first). -/
def specDecimal (ds : List Char) : Nat :=
  Nat.ofDigits 10 ((ds.map digitVal).reverse)

/-- Spec-side statement of the regex `^(\d+)x(\d+)$`: the character list
decomposes as a non-empty run of digits, a literal `x`, and a non-empty
run of digits. -/
def sizePattern (s : String) : Prop :=
  ∃ d1 d2 : List Char, d1 ≠ [] ∧ d2 ≠ [] ∧
    (∀ c ∈ d1, c.isDigit = true) ∧ (∀ c ∈ d2, c.isDigit = true) ∧
    s.toList = d1 ++ 'x' :: d2

/-! ## Size-comparison utilities (adReplacement.js lines 473-494) -/

/-- `sizesMatchWithTolerance(size1, size2, tolerancePercent)`. -/
def sizesMatchWithTolerance (size1 size2 : Size) (tolerancePercent : Rat) : Bool :=
  let widthDiff := |(size1.width : Rat) - (size2.width : Rat)|
  let heightDiff := |(size1.height : Rat) - (size2.height : Rat)|
  let widthTolerance := (max size1.width size2.width : Int) * (tolerancePercent / 100)
  let heightTolerance := (max size1.height size2.height : Int) * (tolerancePercent / 100)
  decide (widthDiff ≤ widthTolerance) && decide (heightDiff ≤ heightTolerance)

/-- `aspectRatiosMatch(size1, size2, tolerance)`. -/
def aspectRatiosMatch (size1 size2 : Size) (tolerance : Rat) : Bool :=
  let ratio1 := (size1.width : Rat) / (size1.height : Rat)
  let ratio2 := (size2.width : Rat) / (size2.height : Rat)
  decide (|ratio1 - ratio2| / max ratio1 ratio2 ≤ tolerance)

/-! ## IAB standard sizes and video aspect ratios (adDetection module)

`IAB_SIZES` is an object literal whose keys are all non-index strings, so
`Object.keys` enumerates them in insertion order; the table is modelled as
an association list in that order.  Likewise `VIDEO_ASPECT_RATIOS`.
-/

/-- The `IAB_SIZES` table, in insertion order. -/
def IAB_SIZES : List (String × String) :=
  [("300x250", "Medium Rectangle"),
   ("728x90", "Leaderboard"),
   ("300x600", "Half Page"),
   ("320x50", "Mobile Banner"),
   ("320x100", "Large Mobile Banner"),
   ("160x600", "Wide Skyscraper"),
   ("970x250", "Billboard"),
   ("970x90", "Super Leaderboard")]

/-- Parsed `{width, height}` of an IAB size key (`sizeKey.split('x').map(Number)`). -/
def iabKeySize (key : String) : Size :=
  match parseSizeChars key.toList with
  | some sz => sz
  | none => ⟨0, 0⟩

/-- `matchIABSize(width, height, tolerance)`: first IAB key whose both
dimensions lie within `tolerance` pixels, scanning keys in insertion
order; `null` if none. -/
def matchIABSize (width height : Int) (tolerance : Int) : Option String :=
  (IAB_SIZES.find? fun kv =>
    let iab := iabKeySize kv.1
    decide (|width - iab.width| ≤ tolerance) &&
    decide (|height - iab.height| ≤ tolerance)).map (·.1)

/-- The `VIDEO_ASPECT_RATIOS` table, in insertion order. -/
def VIDEO_ASPECT_RATIOS : List (String × Rat) :=
  [("16:9", 16 / 9), ("4:3", 4 / 3), ("21:9", 21 / 9)]

/-- `matchVideoAspectRatio(width, height, tolerance = 0.1)`: `null` when
width or height is falsy (zero), otherwise the first named ratio within
`tolerance` of `width / height`. -/
def matchVideoAspectRatio (width height : Int) (tolerance : Rat := 1 / 10) :
    Option String :=
  if width = 0 ∨ height = 0 then none
  else
    let ratio := (width : Rat) / (height : Rat)
    (VIDEO_ASPECT_RATIOS.find? fun kv =>
      decide (|ratio - kv.2| ≤ tolerance)).map (·.1)

/-! ## Placements, creatives and matches -/

/-- A DV360-extracted HTML5 creative
(`{ type: 'iframe-src'|'html', content }`). -/
structure DV360Creative where
  type : String
  content : String
deriving DecidableEq, Repr

/-- A detected ad placement as consumed by the matcher.  Fields the
matcher and injector read: `selector`, `size`, `sizeString`, `type`,
`subtype` (present only on video placements). -/
structure Placement where
  selector : String
  size : Size
  sizeString : String
  type : String
  subtype : Option String := none
deriving DecidableEq, Repr

/-- A client ad (creative).  `size` is a loosely-typed field (`parseSize`
accepts anything); the `originalUrl` / `dv360Creative` / flag fields are
added by pre-processing and absent (`undefined`) on fresh input. -/
structure ClientAd where
  url : String
  size : JSValue := .vundefined
  originalUrl : Option String := none
  dv360Creative : Option DV360Creative := none
  isDV360Extracted : Option Bool := none
  isDV360HTML : Option Bool := none
deriving DecidableEq, Repr

/-- A match produced by `matchAdsToplacements`
(`{ placement, clientAd, matchType }`). -/
structure Match where
  placement : Placement
  clientAd : ClientAd
  matchType : String
deriving DecidableEq, Repr

/-- A match produced by `matchVideoAdsToplacements`
(`{ placement, clientAd, isVideo: true }`). -/
structure VMatch where
  placement : Placement
  clientAd : ClientAd
  isVideo : Bool
deriving DecidableEq, Repr

/-! ## Sorting

`[...xs].sort(cmp)` with V8's stable sort.  For the comparators used here
(descending pixel area; pairs with an unparseable size compare equal) a
stable sort is modelled by stable insertion sort with `le x y` meaning
"`x` may stay in front of `y`". -/

/-- Insert `x` in front of the first element it may precede (stable). -/
def insertStable (le : α → α → Bool) (x : α) : List α → List α
  | [] => [x]
  | y :: ys => if le x y then x :: y :: ys else y :: insertStable le x ys

/-- Stable insertion sort. -/
def insertionSort (le : α → α → Bool) : List α → List α
  | [] => []
  | x :: xs => insertStable le x (insertionSort le xs)

/-- Comparator for client ads: descending by parsed pixel area; if either
size fails to parse the comparator returns 0 (keep order). -/
def adLe (a b : ClientAd) : Bool :=
  match parseSize a.size, parseSize b.size with
  | some sa, some sb => decide (sb.width * sb.height ≤ sa.width * sa.height)
  | _, _ => true

/-- Comparator for placements: descending by pixel area. -/
def placementLe (a b : Placement) : Bool :=
  decide (b.size.width * b.size.height ≤ a.size.width * a.size.height)

/-! ## `matchAdsToplacements` (adReplacement.js lines 521-626) -/

/-- Mutable state of a matcher run: accumulated matches plus the
`usedPlacements` / `usedClientAds` string sets (selectors and urls, in
insertion order). -/
structure MatcherState where
  matchList : List Match
  usedP : List String
  usedA : List String
deriving Repr

/-- Inner placement loop of one tier: first placement (in sorted order)
that is not consumed and satisfies the tier predicate. -/
def findAvail (used : List String) (pred : Placement → Bool) :
    List Placement → Option Placement
  | [] => none
  | p :: ps =>
    if p.selector ∈ used then findAvail used pred ps
    else if pred p then some p else findAvail used pred ps

/-- One iteration of a tier's outer loop: skip consumed ads, skip ads with
unparseable sizes, otherwise take the first available placement satisfying
the tier predicate and consume both sides. -/
def passStep (pred : ClientAd → Size → Placement → Bool) (mt : String)
    (ps : List Placement) (st : MatcherState) (ad : ClientAd) : MatcherState :=
  if ad.url ∈ st.usedA then st
  else
    (parseSize ad.size).elim st fun targetSize =>
      (findAvail st.usedP (pred ad targetSize) ps).elim st fun p =>
        { matchList := st.matchList ++ [⟨p, ad, mt⟩]
          usedP := st.usedP ++ [p.selector]
          usedA := st.usedA ++ [ad.url] }

/-- A whole tier: outer loop over the sorted client ads. -/
def runPass (pred : ClientAd → Size → Placement → Bool) (mt : String)
    (ps : List Placement) (st : MatcherState) : List ClientAd → MatcherState
  | [] => st
  | ad :: rest => runPass pred mt ps (passStep pred mt ps st ad) rest

/-- Tier-1 predicate: exact size equality. -/
def exactPred (_ : ClientAd) (targetSize : Size) (p : Placement) : Bool :=
  decide (p.size.width = targetSize.width) &&
  decide (p.size.height = targetSize.height)

/-- `iabMatch === clientAd.size`: strict equality between the (nullable)
IAB key and the loosely-typed `size` field. -/
def jsStrictEqOptStr : Option String → JSValue → Bool
  | some k, .vstr s => k == s
  | none, .vnull => true
  | _, _ => false

/-- Tier-2 predicate: the placement resolves (within 20px) to an IAB key
strictly equal to the client ad's `size` field. -/
def iabPred (ad : ClientAd) (_ : Size) (p : Placement) : Bool :=
  jsStrictEqOptStr (matchIABSize p.size.width p.size.height 20) ad.size

/-- Tier-3 predicate: 15% size tolerance AND 0.15 aspect-ratio
tolerance. -/
def tier3Pred (_ : ClientAd) (targetSize : Size) (p : Placement) : Bool :=
  sizesMatchWithTolerance p.size targetSize 15 &&
  aspectRatiosMatch p.size targetSize (15 / 100)

/-- `matchAdsToplacements(placements, clientAds)`: sort both inputs by
descending area, then run the exact, IAB-tolerance and flexible-tolerance
tiers in order, each over all still-unconsumed ads/placements. -/
def matchAdsToplacements (placements : List Placement) (clientAds : List ClientAd) :
    List Match :=
  (runPass tier3Pred "flexible-tolerance" (insertionSort placementLe placements)
    (runPass iabPred "iab-tolerance" (insertionSort placementLe placements)
      (runPass exactPred "exact" (insertionSort placementLe placements)
        ⟨[], [], []⟩ (insertionSort adLe clientAds))
      (insertionSort adLe clientAds))
    (insertionSort adLe clientAds)).matchList

/-! ## `matchVideoAdsToplacements` (adReplacement.js lines 635-667) -/

/-- Per-placement acceptance test of the video matcher: computed aspect
class is `16:9`, or the subtype is `native` or `iframe`. -/
def videoCond (p : Placement) : Bool :=
  (matchVideoAspectRatio p.size.width p.size.height == some "16:9") ||
  (p.subtype == some "native") || (p.subtype == some "iframe")

/-- Inner loop of the video matcher: first unconsumed video placement
satisfying `videoCond`. -/
def vfindAvail (used : List String) : List Placement → Option Placement
  | [] => none
  | p :: ps =>
    if p.selector ∈ used then vfindAvail used ps
    else if videoCond p then some p else vfindAvail used ps

/-- Outer loop of the video matcher. -/
def vmatchGo (ps : List Placement) (used : List String) :
    List ClientAd → List VMatch
  | [] => []
  | ad :: rest =>
    (vfindAvail used ps).elim (vmatchGo ps used rest) fun p =>
      ⟨p, ad, true⟩ :: vmatchGo ps (used ++ [p.selector]) rest

/-- `matchVideoAdsToplacements(placements, videoAds)`: keep only
`type === 'video'` placements, sort them by descending area, then greedily
give each video ad the first acceptable unconsumed placement. -/
def matchVideoAdsToplacements (placements : List Placement)
    (videoAds : List ClientAd) : List VMatch :=
  let videoPlacements := placements.filter (fun p => p.type == "video")
  let sortedPlacements := insertionSort placementLe videoPlacements
  vmatchGo sortedPlacements [] videoAds

/-! ## Supporting lemmas: decimal reading and regex decomposition -/

theorem decimalValue_go (l : List Char) (n : Nat) :
    l.foldl (fun n c => 10 * n + digitVal c) n =
      n * 10 ^ l.length + specDecimal l := by
  induction l generalizing n with
  | nil => simp [specDecimal, Nat.ofDigits]
  | cons c l ih =>
    simp only [List.foldl_cons, ih, specDecimal, List.map_cons,
      List.reverse_cons, Nat.ofDigits_append, List.length_cons,
      List.length_reverse, List.length_map, Nat.ofDigits_singleton]
    ring

/-- `parseInt` on a digit string agrees with the spec-side decimal
reading. -/
theorem decimalValue_eq_specDecimal (l : List Char) :
    decimalValue l = specDecimal l := by
  simpa using decimalValue_go l 0

theorem takeWhile_append_all {p : α → Bool} {l1 : List α} (l2 : List α)
    (h : ∀ a ∈ l1, p a = true) :
    (l1 ++ l2).takeWhile p = l1 ++ l2.takeWhile p := by
  induction l1 with
  | nil => simp
  | cons a l ih =>
    simp only [List.cons_append, List.takeWhile_cons, h a (by simp),
      if_true, List.cons.injEq, true_and]
    exact ih fun b hb => h b (by simp [hb])

theorem dropWhile_append_all {p : α → Bool} {l1 : List α} (l2 : List α)
    (h : ∀ a ∈ l1, p a = true) :
    (l1 ++ l2).dropWhile p = l2.dropWhile p := by
  induction l1 with
  | nil => simp
  | cons a l ih =>
    simp only [List.cons_append, List.dropWhile_cons, h a (by simp), if_true]
    exact ih fun b hb => h b (by simp [hb])

/-- Success of the embedded regex match yields the spec-side
decomposition. -/
theorem parseSizeChars_eq_some {cs : List Char} {sz : Size}
    (h : parseSizeChars cs = some sz) :
    ∃ d1 d2 : List Char, d1 ≠ [] ∧ d2 ≠ [] ∧
      (∀ c ∈ d1, c.isDigit = true) ∧ (∀ c ∈ d2, c.isDigit = true) ∧
      cs = d1 ++ 'x' :: d2 ∧
      sz = ⟨(decimalValue d1 : Int), (decimalValue d2 : Int)⟩ := by
  unfold parseSizeChars at h
  split at h
  · rename_i d2 hrest
    split at h
    · rename_i hcond
      refine ⟨cs.takeWhile Char.isDigit, d2, hcond.1, hcond.2.1,
        fun a ha => List.mem_takeWhile_imp ha,
        fun a ha => List.all_eq_true.mp hcond.2.2 a ha,
        ?_, (Option.some.injEq _ _ ▸ h).symm⟩
      conv_lhs => rw [← List.takeWhile_append_dropWhile (p := Char.isDigit) (l := cs)]
      rw [hrest]
    · exact Option.noConfusion h
  · exact Option.noConfusion h

/-! ## C3: totality and exactness of `parseSize` -/

/-- **C3.** `parseSize` is total and matches exactly `^\d+x\d+$`:
every non-string JavaScript value yields `null`; every string not of the
form digits-`x`-digits yields `null`; and every string of that form yields
exactly the pair of the two decimally-parsed integers.  (In the embedding
`parseSize` is a Lean function, so it cannot throw on any input.) -/
theorem parseSize_total :
    (parseSize .vnull = none ∧ parseSize .vundefined = none ∧
      (∀ q, parseSize (.vnum q) = none) ∧ (∀ b, parseSize (.vbool b) = none)) ∧
    (∀ s : String, ¬ sizePattern s → parseSize (.vstr s) = none) ∧
    (∀ d1 d2 : List Char, d1 ≠ [] → d2 ≠ [] →
      (∀ c ∈ d1, c.isDigit = true) → (∀ c ∈ d2, c.isDigit = true) →
      parseSize (.vstr ⟨d1 ++ 'x' :: d2⟩) =
        some ⟨(specDecimal d1 : Int), (specDecimal d2 : Int)⟩) := by
  refine ⟨⟨rfl, rfl, fun _ => rfl, fun _ => rfl⟩, ?_, ?_⟩
  · intro s hnp
    by_cases hemp : s = ""
    · simp [parseSize, hemp]
    · simp only [parseSize, if_neg hemp]
      rcases hps : parseSizeChars s.toList with _ | sz
      · rfl
      · exfalso
        obtain ⟨d1, d2, h1, h2, h3, h4, h5, -⟩ := parseSizeChars_eq_some hps
        exact hnp ⟨d1, d2, h1, h2, h3, h4, h5⟩
  · intro d1 d2 h1 h2 h3 h4
    have hne : (⟨d1 ++ 'x' :: d2⟩ : String) ≠ "" := by
      intro h
      have : d1 ++ 'x' :: d2 = [] := congrArg String.data h
      simp at this
    simp only [parseSize, if_neg hne]
    have htl : (⟨d1 ++ 'x' :: d2⟩ : String).toList = d1 ++ 'x' :: d2 := rfl
    rw [htl]
    unfold parseSizeChars
    rw [dropWhile_append_all _ h3, List.dropWhile_cons_of_neg (by decide)]
    have htw : (d1 ++ 'x' :: d2).takeWhile Char.isDigit = d1 := by
      rw [takeWhile_append_all _ h3, List.takeWhile_cons_of_neg (by decide),
        List.append_nil]
    rw [htw]
    show (if d1 ≠ [] ∧ d2 ≠ [] ∧ d2.all Char.isDigit = true then
        some (⟨(decimalValue d1 : Int), (decimalValue d2 : Int)⟩ : Size)
      else none) = _
    rw [if_pos ⟨h1, h2, List.all_eq_true.mpr fun a ha => h4 a ha⟩,
      decimalValue_eq_specDecimal, decimalValue_eq_specDecimal]

/-- Witness for C3: the digits-`x`-digits branch applied at `"300x250"`. -/
theorem parseSize_total_witness :
    parseSize (.vstr ⟨['3', '0', '0', 'x', '2', '5', '0']⟩) = some ⟨300, 250⟩ :=
  (parseSize_total.2.2 ['3', '0', '0'] ['2', '5', '0']
    (by decide) (by decide) (by decide) (by decide)).trans (by decide)

/-! ## C5: the flexible-tolerance tier requires both conditions -/

/-- Spec-side statement of the Tier-3 acceptance region for placement size
`a` against creative size `b`: width and height each within 15% of the
larger corresponding dimension, and the aspect ratios within 0.15 relative
difference. -/
def specTier3 (a b : Size) : Prop :=
  |(a.width : Rat) - (b.width : Rat)| ≤
      max (a.width : Rat) (b.width : Rat) * (15 / 100) ∧
  |(a.height : Rat) - (b.height : Rat)| ≤
      max (a.height : Rat) (b.height : Rat) * (15 / 100) ∧
  |(a.width : Rat) / (a.height : Rat) - (b.width : Rat) / (b.height : Rat)| /
      max ((a.width : Rat) / (a.height : Rat)) ((b.width : Rat) / (b.height : Rat)) ≤
    15 / 100

/-- **C5.** The third matcher pass accepts a placement/creative pair iff
both the 15% size-tolerance condition and the 0.15 aspect-ratio condition
hold; and a wide/short slot does not match a tall/narrow creative of
similar area (115×100 against 100×115 passes the size tolerance but fails
the ratio test, so Tier 3 rejects it).  Positivity hypotheses restrict the
statement to real (detected) dimensions, where the rational model of the
source's arithmetic is faithful. -/
theorem tier3_requires_both :
    (∀ (ad : ClientAd) (p : Placement) (targetSize : Size),
      0 < p.size.width → 0 < p.size.height →
      0 < targetSize.width → 0 < targetSize.height →
      (tier3Pred ad targetSize p = true ↔ specTier3 p.size targetSize)) ∧
    tier3Pred ⟨"u", .vstr "100x115", none, none, none, none⟩ ⟨100, 115⟩
      ⟨"#wide", ⟨115, 100⟩, "115x100", "css", none⟩ = false := by
  constructor
  · intro ad p targetSize _ _ _ _
    simp only [tier3Pred, sizesMatchWithTolerance, aspectRatiosMatch, specTier3,
      Bool.and_eq_true, decide_eq_true_eq, Int.cast_max]
    tauto
  · with_unfolding_all decide

/-- Witness for C5: the Tier-3 equivalence instantiated at the concrete
pair 302×248 (placement) against 300×250 (creative). -/
theorem tier3_requires_both_witness :
    tier3Pred ⟨"u", .vstr "300x250", none, none, none, none⟩ ⟨300, 250⟩
        ⟨"#a", ⟨302, 248⟩, "302x248", "css", none⟩ = true ↔
      specTier3 ⟨302, 248⟩ ⟨300, 250⟩ :=
  tier3_requires_both.1 ⟨"u", .vstr "300x250", none, none, none, none⟩
    ⟨"#a", ⟨302, 248⟩, "302x248", "css", none⟩ ⟨300, 250⟩
    (by decide) (by decide) (by decide) (by decide)

/-! ## Matcher run invariants -/

theorem findAvail_sound {used : List String} {pred : Placement → Bool}
    {ps : List Placement} {p : Placement} (h : findAvail used pred ps = some p) :
    p ∈ ps ∧ pred p = true ∧ p.selector ∉ used := by
  induction ps with
  | nil => exact Option.noConfusion h
  | cons q qs ih =>
    unfold findAvail at h
    by_cases hq : q.selector ∈ used
    · rw [if_pos hq] at h
      obtain ⟨h1, h2, h3⟩ := ih h
      exact ⟨List.mem_cons_of_mem _ h1, h2, h3⟩
    · rw [if_neg hq] at h
      by_cases hp : pred q
      · rw [if_pos hp] at h
        obtain rfl := Option.some.injEq _ _ ▸ h
        exact ⟨List.mem_cons_self .., hp, hq⟩
      · rw [if_neg hp] at h
        obtain ⟨h1, h2, h3⟩ := ih h
        exact ⟨List.mem_cons_of_mem _ h1, h2, h3⟩

/-- If every placement's selector is already consumed, the inner loop
finds nothing. -/
theorem findAvail_all_used {used : List String} {pred : Placement → Bool}
    {ps : List Placement} (h : ∀ p ∈ ps, p.selector ∈ used) :
    findAvail used pred ps = none := by
  induction ps with
  | nil => rfl
  | cons q qs ih =>
    unfold findAvail
    rw [if_pos (h q (List.mem_cons_self ..))]
    exact ih fun p hp => h p (List.mem_cons_of_mem _ hp)

/-- If every placement's selector is already consumed, one outer-loop step
changes nothing. -/
theorem passStep_stuck {pred : ClientAd → Size → Placement → Bool} {mt : String}
    {ps : List Placement} {st : MatcherState} {ad : ClientAd}
    (h : ∀ p ∈ ps, p.selector ∈ st.usedP) :
    passStep pred mt ps st ad = st := by
  unfold passStep
  by_cases hu : ad.url ∈ st.usedA
  · rw [if_pos hu]
  · rw [if_neg hu]
    cases parseSize ad.size with
    | none => rfl
    | some targetSize => rw [Option.elim_some, findAvail_all_used h, Option.elim_none]

/-- If every placement's selector is already consumed, a whole tier
changes nothing. -/
theorem runPass_stuck {pred : ClientAd → Size → Placement → Bool} {mt : String}
    {ps : List Placement} {st : MatcherState} {ads : List ClientAd}
    (h : ∀ p ∈ ps, p.selector ∈ st.usedP) :
    runPass pred mt ps st ads = st := by
  induction ads with
  | nil => rfl
  | cons ad rest ih =>
    unfold runPass
    rw [passStep_stuck h]
    exact ih

/-- The run invariant: the consumed-selector and consumed-url sets list
exactly the selectors/urls of the accumulated matches, without
duplicates. -/
def StInv (st : MatcherState) : Prop :=
  st.usedP = st.matchList.map (fun m => m.placement.selector) ∧
  st.usedA = st.matchList.map (fun m => m.clientAd.url) ∧
  st.usedP.Nodup ∧ st.usedA.Nodup

theorem passStep_inv {pred : ClientAd → Size → Placement → Bool} {mt : String}
    {ps : List Placement} {st : MatcherState} {ad : ClientAd} (h : StInv st) :
    StInv (passStep pred mt ps st ad) := by
  obtain ⟨hP, hA, hPn, hAn⟩ := h
  unfold passStep
  by_cases hu : ad.url ∈ st.usedA
  · rw [if_pos hu]; exact ⟨hP, hA, hPn, hAn⟩
  · rw [if_neg hu]
    cases hps : parseSize ad.size with
    | none => exact ⟨hP, hA, hPn, hAn⟩
    | some targetSize =>
      rw [Option.elim_some]
      cases hfa : findAvail st.usedP (pred ad targetSize) ps with
      | none => exact ⟨hP, hA, hPn, hAn⟩
      | some p =>
        obtain ⟨-, -, hnew⟩ := findAvail_sound hfa
        rw [Option.elim_some]
        refine ⟨by simp [hP], by simp [hA], ?_, ?_⟩
        · simpa [List.nodup_append] using ⟨hPn, hnew⟩
        · simpa [List.nodup_append] using ⟨hAn, hu⟩

theorem runPass_inv {pred : ClientAd → Size → Placement → Bool} {mt : String}
    {ps : List Placement} {st : MatcherState} {ads : List ClientAd} (h : StInv st) :
    StInv (runPass pred mt ps st ads) := by
  induction ads generalizing st with
  | nil => exact h
  | cons ad rest ih => exact ih (passStep_inv h)

/-- The end-to-end state of a display-matcher run satisfies the
invariant. -/
theorem matchAds_inv (placements : List Placement) (clientAds : List ClientAd) :
    ((matchAdsToplacements placements clientAds).map
        (fun m => m.placement.selector)).Nodup ∧
    ((matchAdsToplacements placements clientAds).map
        (fun m => m.clientAd.url)).Nodup := by
  have h3 : StInv (runPass tier3Pred "flexible-tolerance"
      (insertionSort placementLe placements)
      (runPass iabPred "iab-tolerance" (insertionSort placementLe placements)
        (runPass exactPred "exact" (insertionSort placementLe placements)
          ⟨[], [], []⟩ (insertionSort adLe clientAds))
        (insertionSort adLe clientAds))
      (insertionSort adLe clientAds)) :=
    runPass_inv (runPass_inv (runPass_inv
      ⟨rfl, rfl, List.nodup_nil, List.nodup_nil⟩))
  obtain ⟨hP, hA, hPn, hAn⟩ := h3
  exact ⟨hP ▸ hPn, hA ▸ hAn⟩

/-! ## Video matcher invariants -/

theorem vfindAvail_sound {used : List String} {ps : List Placement}
    {p : Placement} (h : vfindAvail used ps = some p) :
    p ∈ ps ∧ videoCond p = true ∧ p.selector ∉ used := by
  induction ps with
  | nil => exact Option.noConfusion h
  | cons q qs ih =>
    unfold vfindAvail at h
    by_cases hq : q.selector ∈ used
    · rw [if_pos hq] at h
      obtain ⟨h1, h2, h3⟩ := ih h
      exact ⟨List.mem_cons_of_mem _ h1, h2, h3⟩
    · rw [if_neg hq] at h
      by_cases hp : videoCond q
      · rw [if_pos hp] at h
        obtain rfl := Option.some.injEq _ _ ▸ h
        exact ⟨List.mem_cons_self .., hp, hq⟩
      · rw [if_neg hp] at h
        obtain ⟨h1, h2, h3⟩ := ih h
        exact ⟨List.mem_cons_of_mem _ h1, h2, h3⟩

/-- Selectors of the video matches are fresh and duplicate-free. -/
theorem vmatchGo_sel_nodup (ps : List Placement) :
    ∀ (ads : List ClientAd) (used : List String),
      ((vmatchGo ps used ads).map (fun m => m.placement.selector)).Nodup ∧
      ∀ s ∈ (vmatchGo ps used ads).map (fun m => m.placement.selector), s ∉ used := by
  intro ads
  induction ads with
  | nil => exact fun used => ⟨by simp [vmatchGo], by simp [vmatchGo]⟩
  | cons ad rest ih =>
    intro used
    unfold vmatchGo
    cases hfa : vfindAvail used ps with
    | none => rw [Option.elim_none]; exact ih used
    | some p =>
      rw [Option.elim_some]
      obtain ⟨-, -, hnew⟩ := vfindAvail_sound hfa
      obtain ⟨ihn, ihf⟩ := ih (used ++ [p.selector])
      simp only [List.map_cons, List.nodup_cons]
      refine ⟨⟨?_, ihn⟩, ?_⟩
      · intro hmem
        exact absurd (by simp) (ihf _ hmem)
      · intro s hs
        rcases List.mem_cons.mp hs with rfl | hs'
        · exact hnew
        · intro hcontra
          exact ihf s hs' (by simp [hcontra])

/-- The video matcher consumes each entry of the input creative list at
most once: the matched creatives form a sublist of the input. -/
theorem vmatchGo_ads_sublist (ps : List Placement) :
    ∀ (ads : List ClientAd) (used : List String),
      ((vmatchGo ps used ads).map (fun m => m.clientAd)).Sublist ads := by
  intro ads
  induction ads with
  | nil => intro used; simp [vmatchGo]
  | cons ad rest ih =>
    intro used
    unfold vmatchGo
    cases vfindAvail used ps with
    | none => rw [Option.elim_none]; exact (ih used).cons _
    | some p => rw [Option.elim_some]; exact (ih (used ++ [p.selector])).cons₂ _

/-! ## C2: no reuse of placements or creatives within a run -/

/-- **C2.** In any single matcher run, each placement object and each
creative object occurs in at most one match.  For `matchAdsToplacements`
both lists of matched objects are duplicate-free outright (consumption is
tracked by selector and url).  For `matchVideoAdsToplacements` the matched
placements are duplicate-free, and the matched creatives form a sublist of
the input list — each input occurrence is consumed at most once — so for
any duplicate-free creative list the matched creatives are also
duplicate-free. -/
theorem no_reuse :
    (∀ (ps : List Placement) (ads : List ClientAd),
      ((matchAdsToplacements ps ads).map (fun m => m.placement)).Nodup ∧
      ((matchAdsToplacements ps ads).map (fun m => m.clientAd)).Nodup) ∧
    (∀ (ps : List Placement) (ads : List ClientAd),
      ((matchVideoAdsToplacements ps ads).map (fun m => m.placement)).Nodup ∧
      ((matchVideoAdsToplacements ps ads).map (fun m => m.clientAd)).Sublist ads ∧
      (ads.Nodup →
        ((matchVideoAdsToplacements ps ads).map (fun m => m.clientAd)).Nodup)) := by
  constructor
  · intro ps ads
    obtain ⟨hP, hA⟩ := matchAds_inv ps ads
    constructor
    · refine List.Nodup.of_map Placement.selector ?_
      rwa [List.map_map]
    · refine List.Nodup.of_map ClientAd.url ?_
      rwa [List.map_map]
  · intro ps ads
    have hsel := (vmatchGo_sel_nodup
      (insertionSort placementLe (ps.filter (fun p => p.type == "video"))) ads []).1
    have hsub := vmatchGo_ads_sublist
      (insertionSort placementLe (ps.filter (fun p => p.type == "video"))) ads []
    refine ⟨?_, hsub, fun hnd => hsub.nodup hnd⟩
    refine List.Nodup.of_map Placement.selector ?_
    rw [List.map_map]
    exact hsel

/-- Witness for C2: the duplicate-freeness conclusion of the video branch
at a concrete run with a duplicate-free creative list. -/
theorem no_reuse_witness :
    ((matchVideoAdsToplacements
        [⟨"#v1", ⟨640, 360⟩, "640x360", "video", some "iframe"⟩,
         ⟨"#v2", ⟨1280, 720⟩, "1280x720", "video", some "native"⟩]
        [⟨"vid1", .vundefined, none, none, none, none⟩,
         ⟨"vid2", .vundefined, none, none, none, none⟩]).map
      (fun m => m.clientAd)).Nodup :=
  ((no_reuse.2 _ _).2.2) (by decide)

/-! ## C1: the exact tier wins over tolerance tiers -/

theorem runPass_cons {pred : ClientAd → Size → Placement → Bool} {mt : String}
    {ps : List Placement} {st : MatcherState} {ad : ClientAd} {rest : List ClientAd} :
    runPass pred mt ps st (ad :: rest) =
      runPass pred mt ps (passStep pred mt ps st ad) rest := rfl

theorem runPass_nil {pred : ClientAd → Size → Placement → Bool} {mt : String}
    {ps : List Placement} {st : MatcherState} :
    runPass pred mt ps st [] = st := rfl

/-- In a one-placement run where the first sorted ad exactly matches, the
exact tier consumes the placement and that ad. -/
theorem passStep_exact_single {p : Placement} {a1 : ClientAd}
    (hp : p.size = ⟨300, 250⟩) (hp1 : parseSize a1.size = some ⟨300, 250⟩) :
    passStep exactPred "exact" [p] ⟨[], [], []⟩ a1 =
      ⟨[⟨p, a1, "exact"⟩], [p.selector], [a1.url]⟩ := by
  unfold passStep
  rw [if_neg (List.not_mem_nil _), hp1, Option.elim_some]
  have hpred : exactPred a1 ⟨300, 250⟩ p = true := by
    unfold exactPred
    rw [hp]
    decide
  have hfa : findAvail [] (exactPred a1 ⟨300, 250⟩) [p] = some p := by
    unfold findAvail
    rw [if_neg (List.not_mem_nil _), if_pos hpred]
  rw [hfa, Option.elim_some]
  rfl

/-- **C1.** With exactly one placement, of size 300×250, and two creatives
sized `"300x250"` and `"302x248"`, the matcher returns — for either input
order of the creatives — exactly one match: the placement paired with the
300×250 creative, with matchType `exact`.  The exact tier runs to
completion first, so no tolerance tier ever sees the placement. -/
theorem exact_tier_first (p : Placement) (a1 a2 : ClientAd)
    (hp : p.size = ⟨300, 250⟩) (h1 : a1.size = .vstr "300x250")
    (h2 : a2.size = .vstr "302x248") :
    matchAdsToplacements [p] [a1, a2] = [⟨p, a1, "exact"⟩] ∧
    matchAdsToplacements [p] [a2, a1] = [⟨p, a1, "exact"⟩] := by
  have hp1 : parseSize a1.size = some ⟨300, 250⟩ := by rw [h1]; rfl
  have hp2 : parseSize a2.size = some ⟨302, 248⟩ := by rw [h2]; rfl
  have h12 : adLe a1 a2 = true := by
    unfold adLe
    rw [hp1, hp2]
    decide
  have h21 : adLe a2 a1 = false := by
    unfold adLe
    rw [hp1, hp2]
    decide
  -- both input orders sort to [a1, a2] (descending pixel area)
  have hs1 : insertionSort adLe [a1, a2] = [a1, a2] := by
    show insertStable adLe a1 (insertStable adLe a2 []) = [a1, a2]
    show insertStable adLe a1 [a2] = [a1, a2]
    unfold insertStable
    rw [h12, if_pos rfl]
  have hs2 : insertionSort adLe [a2, a1] = [a1, a2] := by
    show insertStable adLe a2 (insertStable adLe a1 []) = [a1, a2]
    show insertStable adLe a2 [a1] = [a1, a2]
    unfold insertStable
    rw [h21]
    exact if_neg (by simp)
  have hsp : insertionSort placementLe [p] = [p] := rfl
  -- the placement is consumed after the first exact-tier step
  have hall : ∀ q ∈ [p], q.selector ∈
      (⟨[⟨p, a1, "exact"⟩], [p.selector], [a1.url]⟩ : MatcherState).usedP := by
    intro q hq
    rcases List.mem_singleton.mp hq with rfl
    simp
  have hrun : runPass exactPred "exact" [p] ⟨[], [], []⟩ [a1, a2] =
      ⟨[⟨p, a1, "exact"⟩], [p.selector], [a1.url]⟩ := by
    rw [runPass_cons, passStep_exact_single hp hp1, runPass_cons,
      passStep_stuck hall, runPass_nil]
  have hfinal : ∀ sortedAds, insertionSort adLe sortedAds = [a1, a2] →
      matchAdsToplacements [p] sortedAds = [⟨p, a1, "exact"⟩] := by
    intro sortedAds hsort
    unfold matchAdsToplacements
    rw [hsp, hsort, hrun, runPass_stuck hall, runPass_stuck hall]
  exact ⟨hfinal [a1, a2] hs1, hfinal [a2, a1] hs2⟩

/-- Witness for C1 at concrete selector/url strings. -/
theorem exact_tier_first_witness :
    matchAdsToplacements
        [⟨"#slot", ⟨300, 250⟩, "300x250", "css", none⟩]
        [⟨"https://a.example/one.jpg", .vstr "300x250", none, none, none, none⟩,
         ⟨"https://a.example/two.jpg", .vstr "302x248", none, none, none, none⟩] =
      [⟨⟨"#slot", ⟨300, 250⟩, "300x250", "css", none⟩,
        ⟨"https://a.example/one.jpg", .vstr "300x250", none, none, none, none⟩,
        "exact"⟩] :=
  (exact_tier_first _ _ _ rfl rfl rfl).1

/-! ## C6: input-order independence via the descending-area sort -/

/-- One exact-tier step consuming the given placement, from an arbitrary
state: the creative is fresh, its size parses, and `findAvail` returns
`p`. -/
theorem passStep_exact_general {ps : List Placement} {st : MatcherState}
    {ad : ClientAd} {sz : Size} {p : Placement}
    (hu : ad.url ∉ st.usedA) (hps : parseSize ad.size = some sz)
    (hfa : findAvail st.usedP (exactPred ad sz) ps = some p) :
    passStep exactPred "exact" ps st ad =
      ⟨st.matchList ++ [⟨p, ad, "exact"⟩], st.usedP ++ [p.selector],
        st.usedA ++ [ad.url]⟩ := by
  unfold passStep
  rw [if_neg hu, hps, Option.elim_some, hfa, Option.elim_some]

/-- **C6.** For placements sized 970×250 and 300×250 and creatives sized
`"300x250"` and `"970x250"` (distinct selectors, distinct urls), every
permutation of the two input lists produces the same pairing: each
creative goes to the placement of equal size, both via the exact tier,
ordered by descending area — because both lists are sorted by pixel area
before matching. -/
theorem sort_order_independent (p970 p300 : Placement) (a970 a300 : ClientAd)
    (hq : p970.size = ⟨970, 250⟩) (hr : p300.size = ⟨300, 250⟩)
    (hqa : a970.size = .vstr "970x250") (hra : a300.size = .vstr "300x250")
    (hsel : p970.selector ≠ p300.selector) (hurl : a970.url ≠ a300.url) :
    ∀ ps ∈ [[p970, p300], [p300, p970]], ∀ ads ∈ [[a970, a300], [a300, a970]],
      matchAdsToplacements ps ads =
        [⟨p970, a970, "exact"⟩, ⟨p300, a300, "exact"⟩] := by
  have hp1 : parseSize a970.size = some ⟨970, 250⟩ := by rw [hqa]; rfl
  have hp2 : parseSize a300.size = some ⟨300, 250⟩ := by rw [hra]; rfl
  have hle : adLe a970 a300 = true := by unfold adLe; rw [hp1, hp2]; decide
  have hnle : adLe a300 a970 = false := by unfold adLe; rw [hp1, hp2]; decide
  have hple : placementLe p970 p300 = true := by
    unfold placementLe; rw [hq, hr]; decide
  have hpnle : placementLe p300 p970 = false := by
    unfold placementLe; rw [hq, hr]; decide
  have hsa1 : insertionSort adLe [a970, a300] = [a970, a300] := by
    show insertStable adLe a970 (insertStable adLe a300 []) = _
    show insertStable adLe a970 [a300] = _
    unfold insertStable
    rw [hle, if_pos rfl]
  have hsa2 : insertionSort adLe [a300, a970] = [a970, a300] := by
    show insertStable adLe a300 (insertStable adLe a970 []) = _
    show insertStable adLe a300 [a970] = _
    unfold insertStable
    rw [hnle]
    exact if_neg (by simp)
  have hsp1 : insertionSort placementLe [p970, p300] = [p970, p300] := by
    show insertStable placementLe p970 (insertStable placementLe p300 []) = _
    show insertStable placementLe p970 [p300] = _
    unfold insertStable
    rw [hple, if_pos rfl]
  have hsp2 : insertionSort placementLe [p300, p970] = [p970, p300] := by
    show insertStable placementLe p300 (insertStable placementLe p970 []) = _
    show insertStable placementLe p300 [p970] = _
    unfold insertStable
    rw [hpnle]
    exact if_neg (by simp)
  -- the canonical run on the sorted lists
  have hfa1 : findAvail [] (exactPred a970 ⟨970, 250⟩) [p970, p300] = some p970 := by
    have hpred : exactPred a970 ⟨970, 250⟩ p970 = true := by
      unfold exactPred; rw [hq]; decide
    unfold findAvail
    rw [if_neg (List.not_mem_nil _), if_pos hpred]
  have hfa2 : findAvail [p970.selector] (exactPred a300 ⟨300, 250⟩) [p970, p300] =
      some p300 := by
    have hpred : exactPred a300 ⟨300, 250⟩ p300 = true := by
      unfold exactPred; rw [hr]; decide
    unfold findAvail
    rw [if_pos (List.mem_singleton.mpr rfl)]
    unfold findAvail
    rw [if_neg (by simpa using hsel.symm), if_pos hpred]
  have hst2 : runPass exactPred "exact" [p970, p300] ⟨[], [], []⟩ [a970, a300] =
      ⟨[⟨p970, a970, "exact"⟩, ⟨p300, a300, "exact"⟩],
        [p970.selector, p300.selector], [a970.url, a300.url]⟩ := by
    rw [runPass_cons,
      passStep_exact_general (List.not_mem_nil _) hp1 hfa1]
    rw [runPass_cons]
    rw [passStep_exact_general (by simpa using hurl.symm) hp2 hfa2]
    rfl
  have hall : ∀ q ∈ [p970, p300], q.selector ∈
      (⟨[⟨p970, a970, "exact"⟩, ⟨p300, a300, "exact"⟩],
        [p970.selector, p300.selector], [a970.url, a300.url]⟩ : MatcherState).usedP := by
    intro q hq
    rcases List.mem_cons.mp hq with rfl | hq'
    · simp
    · rcases List.mem_singleton.mp hq' with rfl
      simp
  have hcore : ∀ ps, insertionSort placementLe ps = [p970, p300] →
      ∀ ads, insertionSort adLe ads = [a970, a300] →
      matchAdsToplacements ps ads =
        [⟨p970, a970, "exact"⟩, ⟨p300, a300, "exact"⟩] := by
    intro ps hps ads hads
    unfold matchAdsToplacements
    rw [hps, hads, hst2, runPass_stuck hall, runPass_stuck hall]
  intro ps hps ads hads
  rcases List.mem_cons.mp hps with rfl | hps'
  · rcases List.mem_cons.mp hads with rfl | hads'
    · exact hcore _ hsp1 _ hsa1
    · rcases List.mem_singleton.mp hads' with rfl
      exact hcore _ hsp1 _ hsa2
  · rcases List.mem_singleton.mp hps' with rfl
    rcases List.mem_cons.mp hads with rfl | hads'
    · exact hcore _ hsp2 _ hsa1
    · rcases List.mem_singleton.mp hads' with rfl
      exact hcore _ hsp2 _ hsa2

/-- Witness for C6 at concrete fields, creative list given in the
reversed order. -/
theorem sort_order_independent_witness :
    matchAdsToplacements
        [⟨"#bb", ⟨970, 250⟩, "970x250", "css", none⟩,
         ⟨"#mr", ⟨300, 250⟩, "300x250", "css", none⟩]
        [⟨"https://a.example/mr.jpg", .vstr "300x250", none, none, none, none⟩,
         ⟨"https://a.example/bb.jpg", .vstr "970x250", none, none, none, none⟩] =
      [⟨⟨"#bb", ⟨970, 250⟩, "970x250", "css", none⟩,
        ⟨"https://a.example/bb.jpg", .vstr "970x250", none, none, none, none⟩,
        "exact"⟩,
       ⟨⟨"#mr", ⟨300, 250⟩, "300x250", "css", none⟩,
        ⟨"https://a.example/mr.jpg", .vstr "300x250", none, none, none, none⟩,
        "exact"⟩] :=
  sort_order_independent _ _ _ _ rfl rfl rfl rfl
    (by decide) (by decide) _ (by simp) _ (by simp)

/-! ## C10: consumption is tracked by url and selector strings -/

/-- **C10.** `matchAdsToplacements` marks consumption with
`usedClientAds.add(clientAd.url)` and `usedPlacements.add(placement.selector)`,
so two distinct creatives sharing a url (or two distinct placements sharing
a selector) can never both be matched in one run; concretely, with two
creatives of url `"u"` sized `"300x250"`/`"728x90"` against two exactly
matching placements, only the larger creative is matched even though a
compatible unconsumed placement remains for the other. -/
theorem consumed_by_url_selector :
    (∀ (ps : List Placement) (ads : List ClientAd) (a1 a2 : ClientAd),
      a1 ∈ ads → a2 ∈ ads → a1 ≠ a2 → a1.url = a2.url →
      ¬ (a1 ∈ (matchAdsToplacements ps ads).map (fun m => m.clientAd) ∧
         a2 ∈ (matchAdsToplacements ps ads).map (fun m => m.clientAd))) ∧
    (∀ (ps : List Placement) (ads : List ClientAd) (p1 p2 : Placement),
      p1 ∈ ps → p2 ∈ ps → p1 ≠ p2 → p1.selector = p2.selector →
      ¬ (p1 ∈ (matchAdsToplacements ps ads).map (fun m => m.placement) ∧
         p2 ∈ (matchAdsToplacements ps ads).map (fun m => m.placement))) ∧
    matchAdsToplacements
        [⟨"#mr", ⟨300, 250⟩, "300x250", "css", none⟩,
         ⟨"#lb", ⟨728, 90⟩, "728x90", "css", none⟩]
        [⟨"u", .vstr "300x250", none, none, none, none⟩,
         ⟨"u", .vstr "728x90", none, none, none, none⟩] =
      [⟨⟨"#mr", ⟨300, 250⟩, "300x250", "css", none⟩,
        ⟨"u", .vstr "300x250", none, none, none, none⟩, "exact"⟩] := by
  refine ⟨?_, ?_, by decide⟩
  · intro ps ads a1 a2 _ _ hne hurl ⟨hm1, hm2⟩
    have hn : ((matchAdsToplacements ps ads).map (fun m => m.clientAd.url)).Nodup :=
      (matchAds_inv ps ads).2
    rw [show (fun m : Match => m.clientAd.url) =
      ClientAd.url ∘ (fun m : Match => m.clientAd) from rfl, ← List.map_map] at hn
    exact hne (List.inj_on_of_nodup_map hn hm1 hm2 hurl)
  · intro ps ads p1 p2 _ _ hne hsel ⟨hm1, hm2⟩
    have hn : ((matchAdsToplacements ps ads).map (fun m => m.placement.selector)).Nodup :=
      (matchAds_inv ps ads).1
    rw [show (fun m : Match => m.placement.selector) =
      Placement.selector ∘ (fun m : Match => m.placement) from rfl, ← List.map_map] at hn
    exact hne (List.inj_on_of_nodup_map hn hm1 hm2 hsel)

/-- Witness for C10: the url-sharing branch applied at the concrete run of
the theorem's own third conjunct. -/
theorem consumed_by_url_selector_witness :
    ¬ (⟨"u", .vstr "300x250", none, none, none, none⟩ ∈
        (matchAdsToplacements
          [⟨"#mr", ⟨300, 250⟩, "300x250", "css", none⟩,
           ⟨"#lb", ⟨728, 90⟩, "728x90", "css", none⟩]
          [⟨"u", .vstr "300x250", none, none, none, none⟩,
           ⟨"u", .vstr "728x90", none, none, none, none⟩]).map
          (fun m => m.clientAd) ∧
       ⟨"u", .vstr "728x90", none, none, none, none⟩ ∈
        (matchAdsToplacements
          [⟨"#mr", ⟨300, 250⟩, "300x250", "css", none⟩,
           ⟨"#lb", ⟨728, 90⟩, "728x90", "css", none⟩]
          [⟨"u", .vstr "300x250", none, none, none, none⟩,
           ⟨"u", .vstr "728x90", none, none, none, none⟩]).map
          (fun m => m.clientAd)) :=
  consumed_by_url_selector.1 _ _ _ _
    (by decide) (by decide) (by decide) rfl

/-! ## C7: video-placement acceptance condition -/

theorem mem_insertStable {le : α → α → Bool} {x a : α} {l : List α} :
    a ∈ insertStable le x l ↔ a ∈ x :: l := by
  induction l with
  | nil => simp [insertStable]
  | cons y ys ih =>
    unfold insertStable
    by_cases h : le x y
    · rw [if_pos h]
    · rw [if_neg h]
      simp only [List.mem_cons, ih, List.mem_cons]
      tauto

theorem mem_insertionSort {le : α → α → Bool} {a : α} {l : List α} :
    a ∈ insertionSort le l ↔ a ∈ l := by
  induction l with
  | nil => simp [insertionSort]
  | cons x xs ih =>
    unfold insertionSort
    rw [mem_insertStable]
    simp [ih]

/-- Every video match pairs its creative with a consumable placement drawn
from the sorted pool. -/
theorem vmatchGo_sound {ps : List Placement} {used : List String}
    {ads : List ClientAd} {m : VMatch} (h : m ∈ vmatchGo ps used ads) :
    m.placement ∈ ps ∧ videoCond m.placement = true ∧ m.isVideo = true := by
  induction ads generalizing used with
  | nil => simp [vmatchGo] at h
  | cons ad rest ih =>
    unfold vmatchGo at h
    cases hfa : vfindAvail used ps with
    | none =>
      rw [hfa, Option.elim_none] at h
      exact ih h
    | some p =>
      rw [hfa, Option.elim_some] at h
      obtain ⟨hmem, hcond, -⟩ := vfindAvail_sound hfa
      rcases List.mem_cons.mp h with rfl | h'
      · exact ⟨hmem, hcond, rfl⟩
      · exact ih h'

/-- **C7.** A video creative is matched only to placements with
`type === 'video'` satisfying the acceptance condition (computed aspect
class `16:9`, or subtype `native` or `iframe`); and conversely a single
video placement satisfying the condition is matched to a single video
creative.  In particular a `native`-subtype placement with non-16:9
dimensions still matches, and no video creative is ever matched to a
non-video placement. -/
theorem video_match_condition :
    (∀ (ps : List Placement) (ads : List ClientAd),
      ∀ m ∈ matchVideoAdsToplacements ps ads,
        m.placement.type = "video" ∧ videoCond m.placement = true) ∧
    (∀ (p : Placement) (ad : ClientAd), p.type = "video" →
      videoCond p = true →
      matchVideoAdsToplacements [p] [ad] = [⟨p, ad, true⟩]) := by
  constructor
  · intro ps ads m hm
    obtain ⟨hmem, hcond, -⟩ := vmatchGo_sound hm
    have hfil : m.placement ∈ ps.filter (fun p => p.type == "video") :=
      mem_insertionSort.mp hmem
    obtain ⟨-, hty⟩ := List.mem_filter.mp hfil
    exact ⟨by simpa using hty, hcond⟩
  · intro p ad hty hcond
    have hfil : [p].filter (fun q => q.type == "video") = [p] := by
      simp [List.filter, hty]
    unfold matchVideoAdsToplacements
    rw [hfil]
    show vmatchGo [p] [] [ad] = _
    unfold vmatchGo
    have hfa : vfindAvail [] [p] = some p := by
      unfold vfindAvail
      rw [if_neg (List.not_mem_nil _), if_pos hcond]
    rw [hfa, Option.elim_some]
    rfl

/-- Witness for C7: a `native`-subtype 300×250 video placement — whose
computed aspect class is not 16:9 — still receives the video creative. -/
theorem video_match_condition_witness :
    matchVideoAspectRatio 300 250 = none ∧
    matchVideoAdsToplacements
        [⟨"#nv", ⟨300, 250⟩, "300x250", "video", some "native"⟩]
        [⟨"https://v.example/clip.mp4", .vundefined, none, none, none, none⟩] =
      [⟨⟨"#nv", ⟨300, 250⟩, "300x250", "video", some "native"⟩,
        ⟨"https://v.example/clip.mp4", .vundefined, none, none, none, none⟩,
        true⟩] :=
  ⟨by with_unfolding_all decide,
   video_match_condition.2 _ _ rfl (by with_unfolding_all decide)⟩

/-! ## Iframe detection (adDetection module, `detectIframeAds`)

The in-page scan enumerates `document.querySelectorAll('iframe')`; each
iframe is modelled by the attributes and geometry the scan reads.  Missing
`id`/`name` attributes and a missing `data-src` read as `''` via the
source's `||`-defaults. -/

/-- One `<iframe>` element as seen by the scan. -/
structure IframeEl where
  src : String
  dataSrc : String := ""
  id : String := ""
  name : String := ""
  rectWidth : Rat
  rectHeight : Rat
deriving DecidableEq, Repr

/-- `Math.round` (round half towards +∞). -/
def jsRound (q : Rat) : Int := ⌊q + 1 / 2⌋

/-- The `AD_SERVER_DOMAINS` list. -/
def AD_SERVER_DOMAINS : List String :=
  ["doubleclick.net", "googlesyndication.com", "adnxs.com",
   "advertising.com", "adserver.com", "serving-sys.com",
   "googleadservices.com", "moatads.com", "adsrvr.org",
   "rubiconproject.com"]

/-- `hay.includes(needle)`: the needle occurs contiguously at some offset
of the haystack. -/
def containsSubstr (hay needle : String) : Bool :=
  (List.range (hay.toList.length + 1)).any fun i =>
    needle.toList.isPrefixOf (hay.toList.drop i)

/-- `iframe.src || iframe.getAttribute('data-src') || ''`. -/
def effectiveSrc (f : IframeEl) : String :=
  if f.src ≠ "" then f.src else f.dataSrc

/-- `adDomains.some(domain => src.toLowerCase().includes(domain))`. -/
def isAdServerSrc (src : String) : Bool :=
  AD_SERVER_DOMAINS.any fun d => containsSubstr src.toLower d

/-- Selector preference: `#id`, then `iframe[name="..."]`, then the
positional `iframe:nth-of-type(index+1)`. -/
def iframeSelector (f : IframeEl) (index : Nat) : String :=
  if f.id ≠ "" then "#" ++ f.id
  else if f.name ≠ "" then "iframe[name=\"" ++ f.name ++ "\"]"
  else "iframe:nth-of-type(" ++ toString (index + 1) ++ ")"

/-- A placement record as produced by iframe detection (the `iabSize`
enrichment `map` of the source is fused into construction; it touches no
other field). -/
structure DetPlacement where
  selector : String
  size : Size
  sizeString : String
  type : String
  src : String
  visible : Bool
  iabSize : Option String
deriving DecidableEq, Repr

/-- `getIABSizeName(width, height)`: exact-key lookup. -/
def getIABSizeName (width height : Int) : Option String :=
  (IAB_SIZES.find? fun kv =>
    kv.1 == toString width ++ "x" ++ toString height).map (·.2)

/-- The scan body: iframes whose effective src matches an ad-server domain
each yield one placement, every other iframe yields none; the rendered
rect is rounded for `size`, and `visible` records whether the *raw* rect
has positive width and height. -/
def detectIframeAdsGo : Nat → List IframeEl → List DetPlacement
  | _, [] => []
  | index, f :: fs =>
    if isAdServerSrc (effectiveSrc f) then
      { selector := iframeSelector f index
        size := ⟨jsRound f.rectWidth, jsRound f.rectHeight⟩
        sizeString := toString (jsRound f.rectWidth) ++ "x" ++
          toString (jsRound f.rectHeight)
        type := "iframe"
        src := effectiveSrc f
        visible := decide (0 < f.rectWidth) && decide (0 < f.rectHeight)
        iabSize := getIABSizeName (jsRound f.rectWidth) (jsRound f.rectHeight) } ::
      detectIframeAdsGo (index + 1) fs
    else
      detectIframeAdsGo (index + 1) fs

/-- `detectIframeAds`, over the page's iframe list. -/
def detectIframeAds (iframes : List IframeEl) : List DetPlacement :=
  detectIframeAdsGo 0 iframes

/-- A zero-rendered-size ad-server iframe. -/
def zeroAdIframe : IframeEl :=
  ⟨"https://ad.doubleclick.net/abc", "", "", "", 0, 0⟩

/-- Counterexample to C4 as stated: detection run on a single ad-server
iframe with zero rendered size returns a placement of size 0×0, so not
every detected placement has positive width and height. -/
theorem detect_positive_size_counterexample :
    ¬ (∀ (iframes : List IframeEl), ∀ pl ∈ detectIframeAds iframes,
        0 < pl.size.width ∧ 0 < pl.size.height) := by
  intro h
  have hmem : (⟨"iframe:nth-of-type(1)", ⟨0, 0⟩, "0x0", "iframe",
      "https://ad.doubleclick.net/abc", false, none⟩ : DetPlacement) ∈
      detectIframeAds [zeroAdIframe] := by
    with_unfolding_all decide
  exact absurd (h [zeroAdIframe] _ hmem).1 (by decide)

theorem detectIframeAdsGo_length (iframes : List IframeEl) :
    ∀ index, (detectIframeAdsGo index iframes).length =
      (iframes.filter fun f => isAdServerSrc (effectiveSrc f)).length := by
  induction iframes with
  | nil => intro index; rfl
  | cons f fs ih =>
    intro index
    unfold detectIframeAdsGo
    by_cases hf : isAdServerSrc (effectiveSrc f)
    · rw [if_pos hf]
      simp [List.filter, hf, ih (index + 1)]
    · rw [if_neg hf]
      simp [List.filter, hf, ih (index + 1)]

/-- **C4 (amended).** Iframe detection does not filter by rendered size:
every iframe whose src matches an ad-server domain yields a placement
(one placement per matching iframe), zero-area ones included — they are
merely flagged `visible: false` — so zero-area placements can reach the
matcher.  Concretely, a zero-sized `doubleclick.net` iframe yields exactly
one placement with size 0×0 and `visible = false`. -/
theorem detect_keeps_zero_size :
    (∀ (iframes : List IframeEl), (detectIframeAds iframes).length =
      (iframes.filter fun f => isAdServerSrc (effectiveSrc f)).length) ∧
    detectIframeAds [zeroAdIframe] =
      [⟨"iframe:nth-of-type(1)", ⟨0, 0⟩, "0x0", "iframe",
        "https://ad.doubleclick.net/abc", false, none⟩] :=
  ⟨fun iframes => detectIframeAdsGo_length iframes 0,
   by with_unfolding_all decide⟩

/-! ## `preprocessClientAds` (adReplacement.js lines 393-456)

Browser-side DV360 resolution is modelled by oracles: `isDV360` for
`isDV360PreviewUrl` (URL parsing is a platform primitive), `htmlX i url`
for `await extractDV360CreativeHTML(...)` and `shotX i url` for
`await extractDV360Creative(...)`.  Each extractor's `try` body resolves
to a creative or — via its `catch` — to `null`, but the extractor can
also REJECT: `await getBrowser()` (lines 65, 233) and `ensureTempDir()`
(line 231) run before the `try`, and the `finally` blocks `await
page.close()` (lines 217-221, 361-365), whose rejection overrides even
the catch's `return null`.  So each oracle yields a `JSResult (Option _)`:
resolved-with-value, resolved-with-null, or rejected.
`preprocessClientAds` itself has no `try`/`catch`, so a rejected `await`
propagates and aborts the whole batch — the embedding returns
`Except String (List ClientAd)`.  `b64` models `fileToBase64DataUrl`,
whose entire (synchronous) body is inside `try`/`catch` returning `null`
(lines 373-384), hence plain `Option`.  The oracles absorb `Date.now()`
and the filesystem; the `fs.unlinkSync` cleanup sits in its own
`try`/`catch` (lines 437-441) and has no effect on the returned list. -/

/-- Outcome of an awaited JavaScript call: the promise resolved to a
value, or it rejected (the `await` throws). -/
inductive JSResult (α : Type) where
  | val (a : α)
  | exn (msg : String)
deriving DecidableEq, Repr

/-- Whether the call resolved (did not throw). -/
def JSResult.isVal : JSResult α → Bool
  | .val _ => true
  | .exn _ => false

/-- Processing of a single creative at index `i`: DV360 preview urls go
through HTML extraction, then screenshot extraction plus base64
conversion, falling back to the original record; everything else passes
through unchanged.  A rejected extraction propagates out of the loop;
every non-throwing branch yields exactly one entry. -/
def preprocessStep (isDV360 : String → Bool)
    (htmlX : Nat → String → JSResult (Option DV360Creative))
    (shotX : Nat → String → JSResult (Option String))
    (b64 : String → Option String) (i : Nat) (ad : ClientAd) :
    Except String (List ClientAd) :=
  if ad.url ≠ "" ∧ isDV360 ad.url then
    match htmlX i ad.url with
    | .exn e => .error e
    | .val (some c) =>
      .ok [{ ad with
              originalUrl := some ad.url
              dv360Creative := some c
              isDV360Extracted := some true
              isDV360HTML := some true }]
    | .val none =>
      match shotX i ad.url with
      | .exn e => .error e
      | .val (some path) =>
        match b64 path with
        | some dataUrl =>
          .ok [{ ad with
                  originalUrl := some ad.url
                  url := dataUrl
                  isDV360Extracted := some true
                  isDV360HTML := some false }]
        | none => .ok [ad]
      | .val none => .ok [ad]
  else .ok [ad]

/-- Loop of `preprocessClientAds`, carrying the element index; the first
rejected `await` aborts the remaining iterations. -/
def preprocessGo (isDV360 : String → Bool)
    (htmlX : Nat → String → JSResult (Option DV360Creative))
    (shotX : Nat → String → JSResult (Option String))
    (b64 : String → Option String) :
    Nat → List ClientAd → Except String (List ClientAd)
  | _, [] => .ok []
  | i, ad :: rest =>
    match preprocessStep isDV360 htmlX shotX b64 i ad with
    | .error e => .error e
    | .ok entry =>
      match preprocessGo isDV360 htmlX shotX b64 (i + 1) rest with
      | .error e => .error e
      | .ok out => .ok (entry ++ out)

/-- `preprocessClientAds(clientAds)`. -/
def preprocessClientAds (isDV360 : String → Bool)
    (htmlX : Nat → String → JSResult (Option DV360Creative))
    (shotX : Nat → String → JSResult (Option String))
    (b64 : String → Option String)
    (clientAds : List ClientAd) : Except String (List ClientAd) :=
  preprocessGo isDV360 htmlX shotX b64 0 clientAds

theorem preprocessStep_ok_length (isDV360 : String → Bool)
    (htmlX : Nat → String → JSResult (Option DV360Creative))
    (shotX : Nat → String → JSResult (Option String))
    (b64 : String → Option String) (i : Nat) (ad : ClientAd)
    {entry : List ClientAd}
    (h : preprocessStep isDV360 htmlX shotX b64 i ad = .ok entry) :
    entry.length = 1 := by
  by_cases hdv : ad.url ≠ "" ∧ isDV360 ad.url = true
  · rcases hh : htmlX i ad.url with _ | e
    · rename_i oc
      rcases oc with _ | c
      · rcases hs : shotX i ad.url with _ | e
        · rename_i op
          rcases op with _ | path
          · simp [preprocessStep, hdv, hh, hs] at h
            simp [← h]
          · rcases hb : b64 path with _ | d <;>
            · simp [preprocessStep, hdv, hh, hs, hb] at h
              simp [← h]
        · simp [preprocessStep, hdv, hh, hs] at h
      · simp [preprocessStep, hdv, hh] at h
        simp [← h]
    · simp [preprocessStep, hdv, hh] at h
  · simp [preprocessStep, hdv] at h
    simp [← h]

theorem preprocessStep_fail (isDV360 : String → Bool)
    (htmlX : Nat → String → JSResult (Option DV360Creative))
    (shotX : Nat → String → JSResult (Option String))
    (b64 : String → Option String) (i : Nat) (ad : ClientAd)
    (hh : htmlX i ad.url = .val none) (hs : shotX i ad.url = .val none) :
    preprocessStep isDV360 htmlX shotX b64 i ad = .ok [ad] := by
  by_cases hdv : ad.url ≠ "" ∧ isDV360 ad.url = true
  · simp [preprocessStep, hdv, hh, hs]
  · simp [preprocessStep, hdv]

theorem preprocessStep_total (isDV360 : String → Bool)
    (htmlX : Nat → String → JSResult (Option DV360Creative))
    (shotX : Nat → String → JSResult (Option String))
    (b64 : String → Option String) (i : Nat) (ad : ClientAd)
    (hh : (htmlX i ad.url).isVal = true) (hs : (shotX i ad.url).isVal = true) :
    ∃ entry, preprocessStep isDV360 htmlX shotX b64 i ad = .ok entry := by
  by_cases hdv : ad.url ≠ "" ∧ isDV360 ad.url = true
  · rcases hhe : htmlX i ad.url with _ | e
    · rename_i oc
      rcases oc with _ | c
      · rcases hse : shotX i ad.url with _ | e
        · rename_i op
          rcases op with _ | path
          · exact ⟨[ad], by simp [preprocessStep, hdv, hhe, hse]⟩
          · rcases hb : b64 path with _ | d
            · exact ⟨[ad], by simp [preprocessStep, hdv, hhe, hse, hb]⟩
            · exact ⟨[{ ad with
                  originalUrl := some ad.url
                  url := d
                  isDV360Extracted := some true
                  isDV360HTML := some false }],
                by simp [preprocessStep, hdv, hhe, hse, hb]⟩
        · rw [hse] at hs
          exact absurd hs (by simp [JSResult.isVal])
      · exact ⟨[{ ad with
            originalUrl := some ad.url
            dv360Creative := some c
            isDV360Extracted := some true
            isDV360HTML := some true }],
          by simp [preprocessStep, hdv, hhe]⟩
    · rw [hhe] at hh
      exact absurd hh (by simp [JSResult.isVal])
  · exact ⟨[ad], by simp [preprocessStep, hdv]⟩

theorem preprocessGo_ok (isDV360 : String → Bool)
    (htmlX : Nat → String → JSResult (Option DV360Creative))
    (shotX : Nat → String → JSResult (Option String))
    (b64 : String → Option String) (ads : List ClientAd) :
    ∀ k (out : List ClientAd),
      preprocessGo isDV360 htmlX shotX b64 k ads = .ok out →
      out.length = ads.length ∧
      ∀ i (hi : i < ads.length), htmlX (k + i) (ads[i]).url = .val none →
        shotX (k + i) (ads[i]).url = .val none → out[i]? = some ads[i] := by
  induction ads with
  | nil =>
    intro k out h
    obtain rfl : ([] : List ClientAd) = out := by
      simpa [preprocessGo] using h
    exact ⟨rfl, fun i hi => by simp at hi⟩
  | cons ad rest ih =>
    intro k out h
    unfold preprocessGo at h
    rcases hstep : preprocessStep isDV360 htmlX shotX b64 k ad with e | entry <;>
      rw [hstep] at h
    · exact Except.noConfusion h
    · rcases hrest : preprocessGo isDV360 htmlX shotX b64 (k + 1) rest with e | out' <;>
        rw [hrest] at h
      · exact Except.noConfusion h
      · have h' : (Except.ok (entry ++ out') : Except String (List ClientAd)) =
            .ok out := h
        obtain rfl : entry ++ out' = out := by simpa using h'
        obtain ⟨ihl, ihf⟩ := ih (k + 1) out' hrest
        have hlen := preprocessStep_ok_length isDV360 htmlX shotX b64 k ad hstep
        refine ⟨by simp [hlen, ihl, Nat.add_comm], ?_⟩
        intro i hi hh hs
        cases i with
        | zero =>
          simp only [List.getElem_cons_zero] at hh hs
          rw [Nat.add_zero] at hh hs
          obtain rfl : entry = [ad] := by
            have := preprocessStep_fail isDV360 htmlX shotX b64 k ad hh hs
            rw [hstep] at this
            simpa using this
          simp
        | succ j =>
          have hj : j < rest.length := Nat.lt_of_succ_lt_succ hi
          rw [List.getElem?_append_right
              (by rw [hlen]; exact Nat.succ_le_succ (Nat.zero_le _)), hlen]
          simp only [List.getElem_cons_succ] at hh hs ⊢
          exact ihf j hj
            (by rw [Nat.add_right_comm]; simpa using hh)
            (by rw [Nat.add_right_comm]; simpa using hs)

theorem preprocessGo_total (isDV360 : String → Bool)
    (htmlX : Nat → String → JSResult (Option DV360Creative))
    (shotX : Nat → String → JSResult (Option String))
    (b64 : String → Option String) (ads : List ClientAd)
    (hh : ∀ i s, (htmlX i s).isVal = true)
    (hs : ∀ i s, (shotX i s).isVal = true) :
    ∀ k, ∃ out, preprocessGo isDV360 htmlX shotX b64 k ads = .ok out := by
  induction ads with
  | nil => exact fun k => ⟨[], rfl⟩
  | cons ad rest ih =>
    intro k
    obtain ⟨entry, hstep⟩ := preprocessStep_total isDV360 htmlX shotX b64 k ad
      (hh k ad.url) (hs k ad.url)
    obtain ⟨out', hrest⟩ := ih (k + 1)
    refine ⟨entry ++ out', ?_⟩
    unfold preprocessGo
    rw [hstep, hrest]

/-- Counterexample to C8 as stated: the claim covers creatives whose
extractions "return null or throw" and asserts the batch always survives.
But `preprocessClientAds` has no `try`/`catch`, and an extraction CAN
reject (`await getBrowser()` before the `try`, `await page.close()` in the
`finally`): with an HTML extraction that rejects, the run on a two-creative
batch produces no output list at all — the batch is aborted, so it is not
the case that pre-processing always yields a processed list. -/
theorem preprocess_never_aborts_counterexample :
    ¬ (∀ (isDV360 : String → Bool)
        (htmlX : Nat → String → JSResult (Option DV360Creative))
        (shotX : Nat → String → JSResult (Option String))
        (b64 : String → Option String) (ads : List ClientAd),
        ∃ out, preprocessClientAds isDV360 htmlX shotX b64 ads = .ok out) := by
  intro h
  obtain ⟨out, hout⟩ := h (fun _ => true)
    (fun _ _ => .exn "getBrowser rejected") (fun _ _ => .val none)
    (fun _ => none)
    [⟨"https://displayvideo.google.com/one", .vstr "300x250",
      none, none, none, none⟩,
     ⟨"https://displayvideo.google.com/two", .vstr "728x90",
      none, none, none, none⟩]
  rw [show preprocessClientAds (fun _ => true)
      (fun _ _ => .exn "getBrowser rejected") (fun _ _ => .val none)
      (fun _ => none)
      [⟨"https://displayvideo.google.com/one", .vstr "300x250",
        none, none, none, none⟩,
       ⟨"https://displayvideo.google.com/two", .vstr "728x90",
        none, none, none, none⟩] =
      .error "getBrowser rejected" from rfl] at hout
  exact Except.noConfusion hout

/-- **C8 (amended).** When the extractions resolve (possibly to `null` —
each extractor's own `catch` turns its internal failures into `null`),
pre-processing never drops or aborts: any completed run has exactly one
output entry per input creative, a creative whose HTML and screenshot
extractions both resolve to `null` passes through as the original,
unmodified record, and a run in which no extraction rejects always
completes.  (If an extraction rejects — e.g. `getBrowser()` or the
`finally`'s `page.close()` — the exception propagates and aborts the
batch, per the counterexample.) -/
theorem preprocess_null_failures_degrade :
    (∀ (isDV360 : String → Bool)
      (htmlX : Nat → String → JSResult (Option DV360Creative))
      (shotX : Nat → String → JSResult (Option String))
      (b64 : String → Option String) (ads out : List ClientAd),
      preprocessClientAds isDV360 htmlX shotX b64 ads = .ok out →
      out.length = ads.length ∧
      ∀ i (hi : i < ads.length), htmlX i (ads[i]).url = .val none →
        shotX i (ads[i]).url = .val none → out[i]? = some ads[i]) ∧
    (∀ (isDV360 : String → Bool)
      (htmlX : Nat → String → JSResult (Option DV360Creative))
      (shotX : Nat → String → JSResult (Option String))
      (b64 : String → Option String) (ads : List ClientAd),
      (∀ i s, (htmlX i s).isVal = true) → (∀ i s, (shotX i s).isVal = true) →
      ∃ out, preprocessClientAds isDV360 htmlX shotX b64 ads = .ok out) := by
  constructor
  · intro isDV360 htmlX shotX b64 ads out h
    obtain ⟨hl, hf⟩ := preprocessGo_ok isDV360 htmlX shotX b64 ads 0 out h
    exact ⟨hl, fun i hi hh hs => hf i hi (by simpa using hh) (by simpa using hs)⟩
  · intro isDV360 htmlX shotX b64 ads hh hs
    exact preprocessGo_total isDV360 htmlX shotX b64 ads hh hs 0

/-- Witness for C8: a two-creative batch whose extractions all resolve to
`null` completes, and the first creative — both of whose extractions
resolved to `null` — passes through unchanged at position 0. -/
theorem preprocess_null_failures_degrade_witness :
    (∃ out, preprocessClientAds (fun _ => true) (fun _ _ => .val none)
      (fun _ _ => .val none) (fun _ => none)
      [⟨"https://displayvideo.google.com/one", .vstr "300x250",
        none, none, none, none⟩,
       ⟨"https://displayvideo.google.com/two", .vstr "728x90",
        none, none, none, none⟩] = .ok out) ∧
    ([⟨"https://displayvideo.google.com/one", .vstr "300x250",
        none, none, none, none⟩,
      ⟨"https://displayvideo.google.com/two", .vstr "728x90",
        none, none, none, none⟩] : List ClientAd)[0]? =
      some ⟨"https://displayvideo.google.com/one", .vstr "300x250",
        none, none, none, none⟩ :=
  ⟨preprocess_null_failures_degrade.2 (fun _ => true) (fun _ _ => .val none)
    (fun _ _ => .val none) (fun _ => none)
    [⟨"https://displayvideo.google.com/one", .vstr "300x250",
      none, none, none, none⟩,
     ⟨"https://displayvideo.google.com/two", .vstr "728x90",
      none, none, none, none⟩]
    (fun _ _ => rfl) (fun _ _ => rfl),
   (preprocess_null_failures_degrade.1 (fun _ => true) (fun _ _ => .val none)
      (fun _ _ => .val none) (fun _ => none)
      [⟨"https://displayvideo.google.com/one", .vstr "300x250",
        none, none, none, none⟩,
       ⟨"https://displayvideo.google.com/two", .vstr "728x90",
        none, none, none, none⟩]
      [⟨"https://displayvideo.google.com/one", .vstr "300x250",
        none, none, none, none⟩,
       ⟨"https://displayvideo.google.com/two", .vstr "728x90",
        none, none, none, none⟩]
      rfl).2 0 (by decide) rfl rfl⟩

/-! ## `replaceAds` (adReplacement.js lines 679-930)

The live DOM and the in-page replacement logic past the element lookup are
modelled by oracles: `query sel` tells whether `document.querySelector(sel)`
finds an element, and `rest m` gives the structured value the in-page
function returns (or the exception the evaluation throws) once an element
was found — dimension checks, DV360/video/image branches and the inner
`try/catch` all end in one of these outcomes.  The element-lookup fallback
chain before the `Element not found` return is translated from lines
697-714. -/

/-- Result of one `page.evaluate` replacement call, as seen by the outer
loop. -/
inductive PageOutcome where
  | ok (renderedSize : Option Size) (isVideo : Bool) (isDV360HTML : Bool)
      (dv360Type : Option String)
  | fail (error : String)
  | thrown (error : String)

/-- A match as consumed by the injector (`{ placement, clientAd, isVideo = false }`). -/
structure RMatch where
  placement : Placement
  clientAd : ClientAd
  isVideo : Bool := false
deriving DecidableEq, Repr

/-- A `results.successful` entry. -/
structure SuccessEntry where
  selector : String
  originalPlacementSize : String
  renderedSize : String
  clientAdSize : JSValue
  url : String
  type : String
  isVideo : Bool
  isDV360HTML : Option Bool
  dv360Type : Option String
deriving DecidableEq, Repr

/-- A `results.failed` entry. -/
structure FailEntry where
  selector : String
  size : JSValue
  url : String
  error : String
deriving DecidableEq, Repr

/-- `results` accumulator. -/
structure ReplaceResults where
  successful : List SuccessEntry
  failed : List FailEntry
deriving DecidableEq, Repr

/-- JavaScript truthiness of the values `JSValue` models. -/
def jsTruthy : JSValue → Bool
  | .vstr s => s ≠ ""
  | .vnum q => q ≠ 0
  | .vbool b => b
  | .vnull => false
  | .vundefined => false

/-- `a || b` where `b` is a string. -/
def jsOrStr (a : JSValue) (b : String) : JSValue :=
  if jsTruthy a then a else .vstr b

/-- `clientAd.originalUrl || clientAd.url`. -/
def reportUrl (m : RMatch) : String :=
  match m.clientAd.originalUrl with
  | some o => if o = "" then m.clientAd.url else o
  | none => m.clientAd.url

/-- Element lookup with the source's fallback chain: plain
`querySelector`, a `[class*="..."]` retry for class selectors, and the
(redundant) positional retry for `data-ad-position` selectors. -/
def resolveElement (query : String → Bool) (sel : String) : Bool :=
  query sel ||
  (sel.startsWith "." && query ("[class*=\"" ++ sel.drop 1 ++ "\"]")) ||
  (containsSubstr sel "data-ad-position" && query sel)

/-- The failed entry recorded for a match
(`{ selector, size: clientAd.size || placement.sizeString, url, error }`). -/
def mkFailEntry (m : RMatch) (error : String) : FailEntry :=
  ⟨m.placement.selector, jsOrStr m.clientAd.size m.placement.sizeString,
    reportUrl m, error⟩

/-- The successful entry recorded for a match. -/
def mkSuccessEntry (m : RMatch) (renderedSize : Option Size) (isVid : Bool)
    (isHTML : Bool) (dv360Type : Option String) : SuccessEntry :=
  let rendered := match renderedSize with
    | some s => s
    | none => m.placement.size
  { selector := m.placement.selector
    originalPlacementSize := m.placement.sizeString
    renderedSize := toString rendered.width ++ "x" ++ toString rendered.height
    clientAdSize := m.clientAd.size
    url := reportUrl m
    type := if m.isVideo then "video" else m.placement.type
    isVideo := isVid
    isDV360HTML := if isHTML then some true else none
    dv360Type := if isHTML then dv360Type else none }

/-- One `page.evaluate` call: elements that do not resolve return the
`Element not found` failure before any replacement logic runs. -/
def evalOutcome (query : String → Bool) (rest : RMatch → PageOutcome)
    (m : RMatch) : PageOutcome :=
  if resolveElement query m.placement.selector then rest m
  else .fail ("Element not found: " ++ m.placement.selector)

/-- `replaceAds(page, matches)`: every match appends exactly one entry to
`successful` or to `failed` (the outer `catch` also appends to `failed`),
and the loop always continues with the next match. -/
def replaceAds (query : String → Bool) (rest : RMatch → PageOutcome) :
    List RMatch → ReplaceResults
  | [] => ⟨[], []⟩
  | m :: ms =>
    let r := replaceAds query rest ms
    match evalOutcome query rest m with
    | .ok rsz isVid isHTML dvt => ⟨mkSuccessEntry m rsz isVid isHTML dvt :: r.successful, r.failed⟩
    | .fail e => ⟨r.successful, mkFailEntry m e :: r.failed⟩
    | .thrown e => ⟨r.successful, mkFailEntry m e :: r.failed⟩

/-- **C9.** For any DOM and any in-page behaviour, every match contributes
exactly one entry to `successful` or `failed` (the counts sum to the number
of matches), and every match whose selector does not resolve yields a
failed entry reporting `Element not found`; all other matches are still
processed. -/
theorem replaceAds_resilient (query : String → Bool)
    (rest : RMatch → PageOutcome) (ms : List RMatch) :
    (replaceAds query rest ms).successful.length +
      (replaceAds query rest ms).failed.length = ms.length ∧
    ∀ m ∈ ms, resolveElement query m.placement.selector = false →
      mkFailEntry m ("Element not found: " ++ m.placement.selector) ∈
        (replaceAds query rest ms).failed := by
  induction ms with
  | nil => exact ⟨rfl, by simp⟩
  | cons m ms ih =>
    obtain ⟨ihl, ihf⟩ := ih
    constructor
    · show ((replaceAds query rest (m :: ms)).successful.length +
        (replaceAds query rest (m :: ms)).failed.length = ms.length + 1)
      unfold replaceAds
      cases evalOutcome query rest m with
      | ok rsz isVid isHTML dvt =>
        simp only [List.length_cons]
        omega
      | fail e =>
        simp only [List.length_cons]
        omega
      | thrown e =>
        simp only [List.length_cons]
        omega
    · intro m' hm' hres
      rcases List.mem_cons.mp hm' with rfl | hm''
      · unfold replaceAds
        rw [show evalOutcome query rest m' =
            .fail ("Element not found: " ++ m'.placement.selector) from by
          unfold evalOutcome
          rw [hres]
          exact if_neg (by simp)]
        exact List.mem_cons_self ..
      · unfold replaceAds
        cases evalOutcome query rest m with
        | ok rsz isVid isHTML dvt => exact ihf m' hm'' hres
        | fail e => exact List.mem_cons_of_mem _ (ihf m' hm'' hres)
        | thrown e => exact List.mem_cons_of_mem _ (ihf m' hm'' hres)

/-- Witness for C9: a two-match batch against a DOM where no selector
resolves — the unresolvable first match yields its `Element not found`
entry while the batch still accounts for both matches. -/
theorem replaceAds_resilient_witness :
    mkFailEntry
        ⟨⟨"#gone", ⟨300, 250⟩, "300x250", "css", none⟩,
         ⟨"https://a.example/one.jpg", .vstr "300x250", none, none, none, none⟩,
         false⟩
        ("Element not found: " ++ "#gone") ∈
      (replaceAds (fun _ => false) (fun _ => .ok none false false none)
        [⟨⟨"#gone", ⟨300, 250⟩, "300x250", "css", none⟩,
          ⟨"https://a.example/one.jpg", .vstr "300x250", none, none, none, none⟩,
          false⟩,
         ⟨⟨"#also", ⟨728, 90⟩, "728x90", "css", none⟩,
          ⟨"https://a.example/two.jpg", .vstr "728x90", none, none, none, none⟩,
          false⟩]).failed :=
  (replaceAds_resilient (fun _ => false) (fun _ => .ok none false false none) _).2
    _ (by simp) (by with_unfolding_all decide)

end Screenshots
